import Mathlib

/-!
Verification of the Port-Dashboard filter engine and aggregation pipeline
(`src/dashboard.py`) against its specification.

The dataset is a list of shipment records.  `SB DATE` values are modelled as
timestamps measured in minutes since an epoch (so a timestamp may carry a
time-of-day component, exactly as a pandas `datetime64` does after
`pd.to_datetime`); `midnight d` is the timestamp produced by
`pd.to_datetime(date)` for the calendar day `d`, and `dayOf ts` truncates a
timestamp to its calendar day.  Column presence in the uploaded file is
modelled by a `Columns` record of Booleans, mirroring the
`if 'COL' in df.columns` guards of `main`.
-/

namespace PortDashboard

/-- One row of the uploaded dataset.  `hsnDescription` is `none` when the
`HSN_DESCRIPTION` cell is missing (pandas `NaN`), which `groupby`,
`value_counts` and `nunique` all drop. -/
structure Record where
  sbDate : Nat
  portOfLoading : String
  countryOfDestination : String
  portOfDischarge : String
  hsnDescription : Option String
  fob : Int
  quantity : Int
deriving DecidableEq, Repr

/-- Which optional columns are present in the uploaded file
(`'SB DATE' in df.columns` etc. in `main`). -/
structure Columns where
  hasSBDate : Bool
  hasPortOfLoading : Bool
  hasCountryOfDestination : Bool
  hasPortOfDischarge : Bool
deriving DecidableEq, Repr

/-- The dataset with every filterable column present. -/
def allCols : Columns := ⟨true, true, true, true⟩

/-- The sidebar state: a date range (two calendar days chosen with
`st.sidebar.date_input`) and three multiselect lists. -/
structure FilterSpec where
  startDay : Nat
  endDay : Nat
  ports : List String
  countries : List String
  dischargePorts : List String
deriving DecidableEq, Repr

def minutesPerDay : Nat := 1440

/-- `pd.to_datetime(d)` for a calendar day `d`: the timestamp at 00:00 of
that day. -/
def midnight (d : Nat) : Nat := d * minutesPerDay

/-- Truncation of a timestamp to its calendar day. -/
def dayOf (ts : Nat) : Nat := ts / minutesPerDay

/-- Lines 56-60 of `dashboard.py`: when the `SB DATE` column exists, keep the
rows with `pd.to_datetime(start_date) <= SB_DATE <= pd.to_datetime(end_date)`.
Note the bounds are the midnights of the chosen days while `SB_DATE` keeps any
stored time-of-day. -/
def dateFilter (cols : Columns) (spec : FilterSpec) (df : List Record) : List Record :=
  if cols.hasSBDate then
    df.filter fun r =>
      decide (midnight spec.startDay ≤ r.sbDate) && decide (r.sbDate ≤ midnight spec.endDay)
  else df

/-- Lines 63-66: `if ports: df = df[df['PORT OF LOADING'].isin(ports)]`. -/
def portFilter (cols : Columns) (spec : FilterSpec) (df : List Record) : List Record :=
  if cols.hasPortOfLoading then
    if spec.ports.isEmpty then df
    else df.filter fun r => spec.ports.contains r.portOfLoading
  else df

/-- Lines 69-72: the `COUNTRY OF DESTINATION` membership filter. -/
def countryFilter (cols : Columns) (spec : FilterSpec) (df : List Record) : List Record :=
  if cols.hasCountryOfDestination then
    if spec.countries.isEmpty then df
    else df.filter fun r => spec.countries.contains r.countryOfDestination
  else df

/-- Lines 75-78: the `PORT OF DISCHARGE` membership filter. -/
def dischargeFilter (cols : Columns) (spec : FilterSpec) (df : List Record) : List Record :=
  if cols.hasPortOfDischarge then
    if spec.dischargePorts.isEmpty then df
    else df.filter fun r => spec.dischargePorts.contains r.portOfDischarge
  else df

/-- The whole filter pipeline of `main` (lines 56-78), applied in source
order: date range, then port of loading, destination country, port of
discharge. -/
def applyFilters (cols : Columns) (spec : FilterSpec) (df : List Record) : List Record :=
  dischargeFilter cols spec (countryFilter cols spec (portFilter cols spec (dateFilter cols spec df)))

/-! ### Membership characterisation of each filter stage -/

theorem mem_dateFilter (spec : FilterSpec) (df : List Record) (r : Record) :
    r ∈ dateFilter allCols spec df ↔
      r ∈ df ∧ midnight spec.startDay ≤ r.sbDate ∧ r.sbDate ≤ midnight spec.endDay := by
  simp [dateFilter, allCols, List.mem_filter, and_assoc]

theorem mem_portFilter (spec : FilterSpec) (df : List Record) (r : Record) :
    r ∈ portFilter allCols spec df ↔
      r ∈ df ∧ (spec.ports = [] ∨ r.portOfLoading ∈ spec.ports) := by
  unfold portFilter allCols
  cases h : spec.ports with
  | nil => simp
  | cons a l =>
    simp [List.mem_filter, List.elem_iff]

theorem mem_countryFilter (spec : FilterSpec) (df : List Record) (r : Record) :
    r ∈ countryFilter allCols spec df ↔
      r ∈ df ∧ (spec.countries = [] ∨ r.countryOfDestination ∈ spec.countries) := by
  unfold countryFilter allCols
  cases h : spec.countries with
  | nil => simp
  | cons a l =>
    simp [List.mem_filter, List.elem_iff]

theorem mem_dischargeFilter (spec : FilterSpec) (df : List Record) (r : Record) :
    r ∈ dischargeFilter allCols spec df ↔
      r ∈ df ∧ (spec.dischargePorts = [] ∨ r.portOfDischarge ∈ spec.dischargePorts) := by
  unfold dischargeFilter allCols
  cases h : spec.dischargePorts with
  | nil => simp
  | cons a l =>
    simp [List.mem_filter, List.elem_iff]

theorem mem_applyFilters (spec : FilterSpec) (df : List Record) (r : Record) :
    r ∈ applyFilters allCols spec df ↔
      r ∈ df ∧
        (midnight spec.startDay ≤ r.sbDate ∧ r.sbDate ≤ midnight spec.endDay) ∧
        (spec.ports = [] ∨ r.portOfLoading ∈ spec.ports) ∧
        (spec.countries = [] ∨ r.countryOfDestination ∈ spec.countries) ∧
        (spec.dischargePorts = [] ∨ r.portOfDischarge ∈ spec.dischargePorts) := by
  unfold applyFilters
  rw [mem_dischargeFilter, mem_countryFilter, mem_portFilter, mem_dateFilter]
  tauto

/-- **C1.**  A record of the dataset belongs to the Filtered View iff it
satisfies every active constraint: the four dimensions are conjoined by AND,
and within a categorical dimension with a non-empty allowed set the record
passes exactly when its value is a member of that set. -/
theorem filtered_view_iff_all_constraints (spec : FilterSpec) (df : List Record) (r : Record) :
    r ∈ applyFilters allCols spec df ↔
      r ∈ df ∧
        (midnight spec.startDay ≤ r.sbDate ∧ r.sbDate ≤ midnight spec.endDay) ∧
        (spec.ports = [] ∨ r.portOfLoading ∈ spec.ports) ∧
        (spec.countries = [] ∨ r.countryOfDestination ∈ spec.countries) ∧
        (spec.dischargePorts = [] ∨ r.portOfDischarge ∈ spec.dischargePorts) :=
  mem_applyFilters spec df r

/-! ### The Filtered View is an order-preserving, value-preserving sublist -/

theorem dateFilter_sublist (cols : Columns) (spec : FilterSpec) (df : List Record) :
    (dateFilter cols spec df).Sublist df := by
  unfold dateFilter
  split
  · exact List.filter_sublist df
  · exact List.Sublist.refl df

theorem portFilter_sublist (cols : Columns) (spec : FilterSpec) (df : List Record) :
    (portFilter cols spec df).Sublist df := by
  unfold portFilter
  split
  · split
    · exact List.Sublist.refl df
    · exact List.filter_sublist df
  · exact List.Sublist.refl df

theorem countryFilter_sublist (cols : Columns) (spec : FilterSpec) (df : List Record) :
    (countryFilter cols spec df).Sublist df := by
  unfold countryFilter
  split
  · split
    · exact List.Sublist.refl df
    · exact List.filter_sublist df
  · exact List.Sublist.refl df

theorem dischargeFilter_sublist (cols : Columns) (spec : FilterSpec) (df : List Record) :
    (dischargeFilter cols spec df).Sublist df := by
  unfold dischargeFilter
  split
  · split
    · exact List.Sublist.refl df
    · exact List.filter_sublist df
  · exact List.Sublist.refl df

/-- **C8.**  The Filtered View is a sublist of the dataset: surviving records
keep their original relative order and are the very same records (filtering
never modifies a field, it only removes whole rows). -/
theorem filtered_view_sublist (cols : Columns) (spec : FilterSpec) (df : List Record) :
    (applyFilters cols spec df).Sublist df :=
  ((((dischargeFilter_sublist cols spec _).trans
      (countryFilter_sublist cols spec _)).trans
      (portFilter_sublist cols spec _)).trans
      (dateFilter_sublist cols spec df))

/-! ### Absent columns disable the dependent filter -/

/-- The four filterable dimensions. -/
inductive Dim
  | date
  | port
  | country
  | discharge
deriving DecidableEq, Repr

/-- Whether the column a dimension's filter depends on is present. -/
def Dim.present (d : Dim) (cols : Columns) : Bool :=
  match d with
  | .date => cols.hasSBDate
  | .port => cols.hasPortOfLoading
  | .country => cols.hasCountryOfDestination
  | .discharge => cols.hasPortOfDischarge

/-- The pipeline with one dimension's filter stage removed: what "the
remaining filters alone" produce. -/
def applyFiltersExcept (d : Dim) (cols : Columns) (spec : FilterSpec) (df : List Record) :
    List Record :=
  match d with
  | .date => dischargeFilter cols spec (countryFilter cols spec (portFilter cols spec df))
  | .port => dischargeFilter cols spec (countryFilter cols spec (dateFilter cols spec df))
  | .country => dischargeFilter cols spec (portFilter cols spec (dateFilter cols spec df))
  | .discharge => countryFilter cols spec (portFilter cols spec (dateFilter cols spec df))

theorem dateFilter_absent (cols : Columns) (spec : FilterSpec) (df : List Record)
    (h : cols.hasSBDate = false) : dateFilter cols spec df = df := by
  simp [dateFilter, h]

theorem portFilter_absent (cols : Columns) (spec : FilterSpec) (df : List Record)
    (h : cols.hasPortOfLoading = false) : portFilter cols spec df = df := by
  simp [portFilter, h]

theorem countryFilter_absent (cols : Columns) (spec : FilterSpec) (df : List Record)
    (h : cols.hasCountryOfDestination = false) : countryFilter cols spec df = df := by
  simp [countryFilter, h]

theorem dischargeFilter_absent (cols : Columns) (spec : FilterSpec) (df : List Record)
    (h : cols.hasPortOfDischarge = false) : dischargeFilter cols spec df = df := by
  simp [dischargeFilter, h]

/-- **C7.**  When the column a filter depends on is absent from the dataset,
that filter is a no-op: the pipeline's output equals what the remaining
filters alone produce (and, the functions being total, no error is raised). -/
theorem absent_column_filter_noop (d : Dim) (cols : Columns) (spec : FilterSpec)
    (df : List Record) (h : d.present cols = false) :
    applyFilters cols spec df = applyFiltersExcept d cols spec df := by
  cases d with
  | date =>
    unfold applyFilters applyFiltersExcept
    rw [dateFilter_absent cols spec df h]
  | port =>
    unfold applyFilters applyFiltersExcept
    rw [portFilter_absent cols spec _ h]
  | country =>
    unfold applyFilters applyFiltersExcept
    rw [countryFilter_absent cols spec _ h]
  | discharge =>
    unfold applyFilters applyFiltersExcept
    rw [dischargeFilter_absent cols spec _ h]

/-- A one-record dataset used as a concrete input below. -/
def rec0 : Record :=
  { sbDate := 100
    portOfLoading := "Chennai"
    countryOfDestination := "USA"
    portOfDischarge := "New York"
    hsnDescription := some "Cotton shirts"
    fob := 250
    quantity := 40 }

/-- Witness for C7 at a concrete input: with the `PORT OF LOADING` column
absent, filtering is what the other three filters produce. -/
theorem absent_column_filter_noop_witness :
    applyFilters ⟨true, false, true, true⟩ ⟨0, 1, ["X"], [], []⟩ [rec0] =
      applyFiltersExcept .port ⟨true, false, true, true⟩ ⟨0, 1, ["X"], [], []⟩ [rec0] :=
  absent_column_filter_noop .port ⟨true, false, true, true⟩ ⟨0, 1, ["X"], [], []⟩ [rec0] rfl

/-! ### The all-absent filter spec is the identity -/

/-- **C3.**  A filter spec whose date range does not narrow beyond the
dataset's own timestamps (every record's `SB DATE` lies between the two chosen
midnights) and whose three selection sets are empty returns the dataset
unchanged; in particular an empty selection set restricts nothing. -/
theorem applyFilters_identity (cols : Columns) (spec : FilterSpec) (df : List Record)
    (hp : spec.ports = []) (hc : spec.countries = []) (hd : spec.dischargePorts = [])
    (hdate : ∀ r ∈ df, midnight spec.startDay ≤ r.sbDate ∧ r.sbDate ≤ midnight spec.endDay) :
    applyFilters cols spec df = df := by
  have h1 : dateFilter cols spec df = df := by
    unfold dateFilter
    split
    · apply List.filter_eq_self.mpr
      intro r hr
      have := hdate r hr
      simp [this.1, this.2]
    · rfl
  have h2 : portFilter cols spec df = df := by
    simp [portFilter, hp]
  have h3 : countryFilter cols spec df = df := by
    simp [countryFilter, hc]
  have h4 : dischargeFilter cols spec df = df := by
    simp [dischargeFilter, hd]
  unfold applyFilters
  rw [h1, h2, h3, h4]

/-- Witness for C3 at a concrete input. -/
theorem applyFilters_identity_witness :
    applyFilters allCols ⟨0, 1, [], [], []⟩ [rec0] = [rec0] :=
  applyFilters_identity allCols ⟨0, 1, [], [], []⟩ [rec0] rfl rfl rfl (by decide)

/-! ### Date-range boundaries and time-of-day -/

/-- A record at 01:00 on calendar day 1: its `SB DATE` falls on the end day of
the range below, yet the comparison against `midnight 1` excludes it. -/
def recLate : Record :=
  { sbDate := 1500
    portOfLoading := "Chennai"
    countryOfDestination := "USA"
    portOfDischarge := "New York"
    hsnDescription := some "Cotton shirts"
    fob := 250
    quantity := 40 }

/-- **C2, counterexample.**  `recLate.sbDate` falls on the calendar day `1`,
the end day of the range `[1, 1]`, yet the record does not appear in the
Filtered View: the code compares full timestamps against the midnight of the
end day, so a time-of-day component does matter. -/
theorem date_boundary_time_of_day_counterexample :
    dayOf recLate.sbDate = (1 : Nat) ∧
      recLate ∉ applyFilters allCols ⟨1, 1, [], [], []⟩ [recLate] := by
  decide

/-- **C2, amended.**  The date-range filter is inclusive at timestamp
granularity: a record whose `SB DATE` is exactly the midnight of the start day
or of the end day appears in the Filtered View, but a record on the end day
with a positive time-of-day does not. -/
theorem date_boundary_inclusive (s e : Nat) (h : s ≤ e) (r : Record) :
    (r.sbDate = midnight s → r ∈ applyFilters allCols ⟨s, e, [], [], []⟩ [r]) ∧
      (r.sbDate = midnight e → r ∈ applyFilters allCols ⟨s, e, [], [], []⟩ [r]) ∧
      (∀ m, 0 < m → r.sbDate = midnight e + m →
        r ∉ applyFilters allCols ⟨s, e, [], [], []⟩ [r]) := by
  have hm : midnight s ≤ midnight e := Nat.mul_le_mul_right minutesPerDay h
  refine ⟨fun hs => ?_, fun he => ?_, fun m hm0 hlate => ?_⟩
  · rw [mem_applyFilters]
    refine ⟨List.mem_singleton_self r, ⟨?_, ?_⟩, Or.inl rfl, Or.inl rfl, Or.inl rfl⟩
    · show midnight s ≤ r.sbDate
      rw [hs]
    · show r.sbDate ≤ midnight e
      rw [hs]
      exact hm
  · rw [mem_applyFilters]
    refine ⟨List.mem_singleton_self r, ⟨?_, ?_⟩, Or.inl rfl, Or.inl rfl, Or.inl rfl⟩
    · show midnight s ≤ r.sbDate
      rw [he]
      exact hm
    · show r.sbDate ≤ midnight e
      rw [he]
  · rw [mem_applyFilters]
    intro hmem
    have h2 : r.sbDate ≤ midnight e := hmem.2.1.2
    rw [hlate] at h2
    omega

/-- Witness for the amended C2 at a concrete input: `rec0` rewritten to lie at
midnight of day 0 survives the range `[0, 1]`. -/
theorem date_boundary_inclusive_witness :
    { rec0 with sbDate := 0 } ∈
      applyFilters allCols ⟨0, 1, [], [], []⟩ [{ rec0 with sbDate := 0 }] :=
  (date_boundary_inclusive 0 1 (by decide) { rec0 with sbDate := 0 }).1 rfl

/-! ### Aggregation pipeline

Each aggregation mirrors one of the cached functions of `dashboard.py` (or
the inline `groupby` of line 139).  pandas `groupby`, `value_counts` and
`nunique` all drop missing (`NaN`) keys, which the embedding renders by
collecting group keys with `filterMap` over the `Option`-valued
`hsnDescription` field.  `nlargest(10)` is rendered as a sort descending by
measure followed by `take 10`. -/

/-- The non-missing `HSN_DESCRIPTION` values of a view, in row order. -/
def hsnValues (df : List Record) : List String :=
  df.filterMap fun r => r.hsnDescription

/-- `df.groupby('HSN_DESCRIPTION')['FOB'].sum()` for one group key. -/
def groupFobSum (df : List Record) (k : String) : Int :=
  ((df.filter fun r => r.hsnDescription == some k).map fun r => r.fob).sum

/-- `df['HSN_DESCRIPTION'].value_counts()` for one group key. -/
def groupCount (df : List Record) (k : String) : Nat :=
  (df.filter fun r => r.hsnDescription == some k).length

/-- `df.groupby('HSN_DESCRIPTION')['QUANTITY'].sum()` for one group key. -/
def groupQtySum (df : List Record) (k : String) : Int :=
  ((df.filter fun r => r.hsnDescription == some k).map fun r => r.quantity).sum

/-- Descending order on the measure column of a keyed `Int` series
(`nlargest` sorts by value, largest first). -/
def measureGeInt (a b : String × Int) : Prop := b.2 ≤ a.2

instance : DecidableRel measureGeInt :=
  fun a b => inferInstanceAs (Decidable (b.2 ≤ a.2))

/-- Descending order on the measure column of a keyed `Nat` series. -/
def measureGeNat (a b : String × Nat) : Prop := b.2 ≤ a.2

instance : DecidableRel measureGeNat :=
  fun a b => inferInstanceAs (Decidable (b.2 ≤ a.2))

/-- Line 24: `df.groupby('HSN_DESCRIPTION')['FOB'].sum().nlargest(10)`. -/
def computeProductFob (df : List Record) : List (String × Int) :=
  (List.insertionSort measureGeInt
    ((hsnValues df).dedup.map fun k => (k, groupFobSum df k))).take 10

/-- Line 32: `df['HSN_DESCRIPTION'].value_counts().nlargest(10)`. -/
def computeProductCounts (df : List Record) : List (String × Nat) :=
  (List.insertionSort measureGeNat
    ((hsnValues df).dedup.map fun k => (k, groupCount df k))).take 10

/-- Line 139: `df.groupby('HSN_DESCRIPTION')['QUANTITY'].sum().nlargest(10)`. -/
def quantityData (df : List Record) : List (String × Int) :=
  (List.insertionSort measureGeInt
    ((hsnValues df).dedup.map fun k => (k, groupQtySum df k))).take 10

/-- Line 36: `df['HSN_DESCRIPTION'].nunique()` — distinct non-missing
values. -/
def computeTotalProducts (df : List Record) : Nat :=
  (hsnValues df).dedup.length

/-- Ascending order on `(SB DATE, categorical)` group keys, as produced by
pandas `groupby` on two columns. -/
def keyLe (a b : Nat × String) : Prop :=
  a.1 < b.1 ∨ (a.1 = b.1 ∧ ¬b.2 < a.2)

instance : DecidableRel keyLe :=
  fun a b => inferInstanceAs (Decidable (a.1 < b.1 ∨ (a.1 = b.1 ∧ ¬b.2 < a.2)))

/-- `keyLe` lifted to keyed rows carrying an `Int` measure. -/
def rowKeyLeInt (a b : (Nat × String) × Int) : Prop := keyLe a.1 b.1

instance : DecidableRel rowKeyLeInt :=
  fun a b => inferInstanceAs (Decidable (keyLe a.1 b.1))

/-- `keyLe` lifted to keyed rows carrying a `Nat` measure. -/
def rowKeyLeNat (a b : (Nat × String) × Nat) : Prop := keyLe a.1 b.1

instance : DecidableRel rowKeyLeNat :=
  fun a b => inferInstanceAs (Decidable (keyLe a.1 b.1))

/-- Line 20: `df.groupby(['SB DATE', 'PORT OF LOADING'])['FOB'].sum()`,
grouping by the raw `SB DATE` values and sorting the group keys ascending. -/
def computePortTrends (df : List Record) : List ((Nat × String) × Int) :=
  List.insertionSort rowKeyLeInt
    ((df.map fun r => (r.sbDate, r.portOfLoading)).dedup.map fun k =>
      (k, ((df.filter fun r => r.sbDate == k.1 && r.portOfLoading == k.2).map
            fun r => r.fob).sum))

/-- Line 28: `df.groupby(['SB DATE', 'HSN_DESCRIPTION']).size()`; rows whose
`HSN_DESCRIPTION` is missing belong to no group. -/
def computeProductTrends (df : List Record) : List ((Nat × String) × Nat) :=
  List.insertionSort rowKeyLeNat
    ((df.filterMap fun r => r.hsnDescription.map fun h => (r.sbDate, h)).dedup.map fun k =>
      (k, (df.filter fun r => r.sbDate == k.1 && r.hsnDescription == some k.2).length))

/-- Least element of a nonempty list of days (`0` for the empty list, unused
there). -/
def listMin : List Nat → Nat
  | [] => 0
  | [d] => d
  | d :: e :: ds => min d (listMin (e :: ds))

/-- Greatest element of a nonempty list of days. -/
def listMax : List Nat → Nat
  | [] => 0
  | [d] => d
  | d :: e :: ds => max d (listMax (e :: ds))

/-- The calendar days of a view's `SB DATE` values. -/
def dayList (df : List Record) : List Nat :=
  df.map fun r => dayOf r.sbDate

/-- Line 16: `df.groupby(pd.Grouper(key='SB DATE', freq='D')).size()` — one
daily bin for every day from the earliest to the latest date in the view,
empty days included with count `0`. -/
def computeShipmentCounts (df : List Record) : List (Nat × Nat) :=
  if df.isEmpty then []
  else
    (List.range (listMax (dayList df) + 1 - listMin (dayList df))).map fun i =>
      (listMin (dayList df) + i,
        (df.filter fun r => dayOf r.sbDate == listMin (dayList df) + i).length)

/-- Line 118: `df.shape[0]`. -/
def totalShipments (df : List Record) : Nat := df.length

/-- Line 122: `df['FOB'].sum()` (pandas sum of an empty series is `0`). -/
def totalFOB (df : List Record) : Int :=
  (df.map fun r => r.fob).sum

/-- Line 119: `df['FOB'].mean()` — `none` renders pandas `NaN`, the mean of
an empty series. -/
def meanFOB (df : List Record) : Option ℚ :=
  if df.isEmpty then none else some ((totalFOB df : ℚ) / (df.length : ℚ))

/-! ### Empty Filtered View -/

/-- A filter spec whose loading-port selection matches nothing in `[rec0]`. -/
def specNoMatch : FilterSpec := ⟨0, 1, ["Mumbai"], [], []⟩

/-- **C4, counterexample.**  A filter spec that empties the view: every table
is empty and count/total-FOB/unique-products are zero, but the mean FOB is
pandas `NaN` (modelled `none`), not zero. -/
theorem empty_view_mean_fob_counterexample :
    applyFilters allCols specNoMatch [rec0] = [] ∧
      meanFOB (applyFilters allCols specNoMatch [rec0]) ≠ some 0 := by
  decide

/-- **C4, amended.**  For every filter spec that produces an empty Filtered
View, all seven aggregate tables are empty (the unique-product count is `0`),
the total shipment count and total FOB are zero — but the mean FOB is the
undefined value `NaN` (modelled as `none`), not zero.  All computations are
total, so none can raise. -/
theorem empty_view_aggregates (cols : Columns) (spec : FilterSpec) (df : List Record)
    (h : applyFilters cols spec df = []) :
    computeShipmentCounts (applyFilters cols spec df) = [] ∧
      computePortTrends (applyFilters cols spec df) = [] ∧
      computeProductFob (applyFilters cols spec df) = [] ∧
      computeProductCounts (applyFilters cols spec df) = [] ∧
      computeProductTrends (applyFilters cols spec df) = [] ∧
      quantityData (applyFilters cols spec df) = [] ∧
      computeTotalProducts (applyFilters cols spec df) = 0 ∧
      totalShipments (applyFilters cols spec df) = 0 ∧
      totalFOB (applyFilters cols spec df) = 0 ∧
      meanFOB (applyFilters cols spec df) = none := by
  rw [h]
  exact ⟨rfl, rfl, rfl, rfl, rfl, rfl, rfl, rfl, rfl, rfl⟩

/-- Witness for the amended C4 at a concrete input. -/
theorem empty_view_aggregates_witness :
    meanFOB (applyFilters allCols ⟨0, 0, [], [], []⟩ []) = none :=
  (empty_view_aggregates allCols ⟨0, 0, [], [], []⟩ [] rfl).2.2.2.2.2.2.2.2.2

/-! ### Unique product count -/

theorem dedup_toFinset {α : Type} [DecidableEq α] (l : List α) :
    l.dedup.toFinset = l.toFinset := by
  ext a
  simp [List.mem_toFinset, List.mem_dedup]

/-- **C6.**  The unique product count is exactly the number of distinct
`HSN_DESCRIPTION` values occurring in the view, and is `0` for an empty
view. -/
theorem unique_product_count (df : List Record) :
    computeTotalProducts df = (hsnValues df).toFinset.card ∧
      computeTotalProducts ([] : List Record) = 0 := by
  refine ⟨?_, rfl⟩
  unfold computeTotalProducts
  rw [← dedup_toFinset (hsnValues df)]
  exact (List.toFinset_card_of_nodup (List.nodup_dedup _)).symm

/-! ### Missing HSN values are dropped by every product aggregation -/

theorem hsnValues_filter_isSome (df : List Record) :
    hsnValues (df.filter fun r => r.hsnDescription.isSome) = hsnValues df := by
  induction df with
  | nil => rfl
  | cons r t ih =>
    cases h : r.hsnDescription with
    | none => simp [hsnValues, List.filter_cons, List.filterMap_cons, h] at ih ⊢; exact ih
    | some v => simp [hsnValues, List.filter_cons, List.filterMap_cons, h] at ih ⊢; exact ih

theorem keyFilter_filter_isSome (df : List Record) (k : String) :
    ((df.filter fun r => r.hsnDescription.isSome).filter
        fun r => r.hsnDescription == some k) =
      df.filter fun r => r.hsnDescription == some k := by
  induction df with
  | nil => rfl
  | cons r t ih =>
    cases h : r.hsnDescription with
    | none => simp [List.filter_cons, h, ih]
    | some v => simp [List.filter_cons, h, ih]

theorem trendKeys_filter_isSome (df : List Record) :
    ((df.filter fun r => r.hsnDescription.isSome).filterMap
        fun r => r.hsnDescription.map fun h => (r.sbDate, h)) =
      df.filterMap fun r => r.hsnDescription.map fun h => (r.sbDate, h) := by
  induction df with
  | nil => rfl
  | cons r t ih =>
    cases h : r.hsnDescription with
    | none => simp [List.filter_cons, List.filterMap_cons, h, ih]
    | some v => simp [List.filter_cons, List.filterMap_cons, h, ih]

theorem trendFilter_filter_isSome (df : List Record) (k : Nat × String) :
    ((df.filter fun r => r.hsnDescription.isSome).filter
        fun r => r.sbDate == k.1 && r.hsnDescription == some k.2) =
      df.filter fun r => r.sbDate == k.1 && r.hsnDescription == some k.2 := by
  induction df with
  | nil => rfl
  | cons r t ih =>
    cases h : r.hsnDescription with
    | none => simp [List.filter_cons, h, ih]
    | some v => simp [List.filter_cons, h, ih]

/-- **C10.**  Records with a missing `HSN_DESCRIPTION` contribute to no group
of any product aggregation and are not counted as a distinct product: every
product aggregation gives the same result on the view as on the view with the
missing-HSN rows removed. -/
theorem null_hsn_excluded (df : List Record) :
    computeProductFob df = computeProductFob (df.filter fun r => r.hsnDescription.isSome) ∧
      computeProductCounts df =
        computeProductCounts (df.filter fun r => r.hsnDescription.isSome) ∧
      computeProductTrends df =
        computeProductTrends (df.filter fun r => r.hsnDescription.isSome) ∧
      quantityData df = quantityData (df.filter fun r => r.hsnDescription.isSome) ∧
      computeTotalProducts df =
        computeTotalProducts (df.filter fun r => r.hsnDescription.isSome) := by
  have hfob : (fun k => (k, groupFobSum (df.filter fun r => r.hsnDescription.isSome) k)) =
      fun k => (k, groupFobSum df k) :=
    funext fun k => by unfold groupFobSum; rw [keyFilter_filter_isSome]
  have hcnt : (fun k => (k, groupCount (df.filter fun r => r.hsnDescription.isSome) k)) =
      fun k => (k, groupCount df k) :=
    funext fun k => by unfold groupCount; rw [keyFilter_filter_isSome]
  have hqty : (fun k => (k, groupQtySum (df.filter fun r => r.hsnDescription.isSome) k)) =
      fun k => (k, groupQtySum df k) :=
    funext fun k => by unfold groupQtySum; rw [keyFilter_filter_isSome]
  have htrd : (fun k : Nat × String =>
        (k, ((df.filter fun r => r.hsnDescription.isSome).filter
              fun r => r.sbDate == k.1 && r.hsnDescription == some k.2).length)) =
      fun k : Nat × String =>
        (k, (df.filter fun r => r.sbDate == k.1 && r.hsnDescription == some k.2).length) :=
    funext fun k => by rw [trendFilter_filter_isSome]
  refine ⟨?_, ?_, ?_, ?_, ?_⟩
  · unfold computeProductFob
    rw [hsnValues_filter_isSome, hfob]
  · unfold computeProductCounts
    rw [hsnValues_filter_isSome, hcnt]
  · unfold computeProductTrends
    rw [trendKeys_filter_isSome, htrd]
  · unfold quantityData
    rw [hsnValues_filter_isSome, hqty]
  · unfold computeTotalProducts
    rw [hsnValues_filter_isSome]

/-! ### Top products by FOB versus total FOB -/

theorem groupFobSum_nonneg (df : List Record) (k : String)
    (h : ∀ r ∈ df, 0 ≤ r.fob) : 0 ≤ groupFobSum df k := by
  unfold groupFobSum
  apply List.sum_nonneg
  intro x hx
  obtain ⟨r, hr, rfl⟩ := List.mem_map.mp hx
  exact h r (List.mem_of_mem_filter hr)

theorem groupFobSum_cons (r : Record) (t : List Record) (k : String) :
    groupFobSum (r :: t) k =
      (if r.hsnDescription = some k then r.fob else 0) + groupFobSum t k := by
  unfold groupFobSum
  rw [List.filter_cons]
  by_cases h : r.hsnDescription = some k
  · simp [h]
  · simp [h]

theorem groupFobSum_eq_zero (df : List Record) (k : String)
    (h : ∀ r ∈ df, r.hsnDescription ≠ some k) : groupFobSum df k = 0 := by
  unfold groupFobSum
  have hnil : df.filter (fun r => r.hsnDescription == some k) = [] :=
    List.filter_eq_nil_iff.mpr fun r hr => by simp [h r hr]
  rw [hnil]
  rfl

theorem mem_hsnValues (df : List Record) (k : String) :
    k ∈ hsnValues df ↔ ∃ r ∈ df, r.hsnDescription = some k := by
  simp [hsnValues, List.mem_filterMap]

theorem totalFOB_cons (r : Record) (t : List Record) :
    totalFOB (r :: t) = r.fob + totalFOB t := by
  simp [totalFOB]

/-- The group sums over the distinct non-missing keys add up to the FOB total
of the rows that carry a key. -/
theorem sum_groupFobSum (df : List Record) :
    ∑ k ∈ (hsnValues df).toFinset, groupFobSum df k =
      totalFOB (df.filter fun r => r.hsnDescription.isSome) := by
  induction df with
  | nil => simp [hsnValues, totalFOB]
  | cons r t ih =>
    cases h : r.hsnDescription with
    | none =>
      have hv : hsnValues (r :: t) = hsnValues t := by
        simp [hsnValues, List.filterMap_cons, h]
      have hfil : (r :: t).filter (fun x => x.hsnDescription.isSome) =
          t.filter fun x => x.hsnDescription.isSome := by
        simp [List.filter_cons, h]
      rw [hv, hfil]
      calc ∑ k ∈ (hsnValues t).toFinset, groupFobSum (r :: t) k
          = ∑ k ∈ (hsnValues t).toFinset, groupFobSum t k :=
            Finset.sum_congr rfl fun k _ => by rw [groupFobSum_cons]; simp [h]
        _ = _ := ih
    | some v =>
      have hv : hsnValues (r :: t) = v :: hsnValues t := by
        simp [hsnValues, List.filterMap_cons, h]
      have hfil : (r :: t).filter (fun x => x.hsnDescription.isSome) =
          r :: t.filter fun x => x.hsnDescription.isSome := by
        simp [List.filter_cons, h]
      have hsum : ∀ k, groupFobSum (r :: t) k =
          (if v = k then r.fob else 0) + groupFobSum t k := fun k => by
        rw [groupFobSum_cons, h]
        simp
      rw [hv, hfil, List.toFinset_cons, totalFOB_cons, ← ih]
      calc ∑ k ∈ insert v (hsnValues t).toFinset, groupFobSum (r :: t) k
          = ∑ k ∈ insert v (hsnValues t).toFinset,
              ((if v = k then r.fob else 0) + groupFobSum t k) :=
            Finset.sum_congr rfl fun k _ => hsum k
        _ = (∑ k ∈ insert v (hsnValues t).toFinset, if v = k then r.fob else 0) +
              ∑ k ∈ insert v (hsnValues t).toFinset, groupFobSum t k :=
            Finset.sum_add_distrib
        _ = r.fob + ∑ k ∈ insert v (hsnValues t).toFinset, groupFobSum t k := by
            rw [Finset.sum_ite_eq]
            simp
        _ = r.fob + ∑ k ∈ (hsnValues t).toFinset, groupFobSum t k := by
            by_cases hv2 : v ∈ (hsnValues t).toFinset
            · rw [Finset.insert_eq_self.mpr hv2]
            · rw [Finset.sum_insert hv2]
              have hz : groupFobSum t v = 0 := by
                apply groupFobSum_eq_zero
                intro x hx hsx
                exact hv2 (List.mem_toFinset.mpr
                  ((mem_hsnValues t v).mpr ⟨x, hx, hsx⟩))
              rw [hz, zero_add]

/-- The measure column of the full (unsorted, untruncated) product-FOB series
sums to the FOB total of the keyed rows. -/
theorem productFob_pairs_sum (df : List Record) :
    (((hsnValues df).dedup.map fun k => (k, groupFobSum df k)).map Prod.snd).sum =
      totalFOB (df.filter fun r => r.hsnDescription.isSome) := by
  rw [List.map_map]
  have hcomp : (Prod.snd ∘ fun k => (k, groupFobSum df k)) = groupFobSum df := rfl
  rw [hcomp, ← List.sum_toFinset _ (List.nodup_dedup (hsnValues df)),
    dedup_toFinset]
  exact sum_groupFobSum df

theorem sum_take_le (l : List Int) (n : Nat) (h : ∀ x ∈ l, 0 ≤ x) :
    (l.take n).sum ≤ l.sum := by
  conv_rhs => rw [← List.take_append_drop n l]
  rw [List.sum_append]
  have hd : 0 ≤ (l.drop n).sum :=
    List.sum_nonneg fun x hx => h x ((List.drop_sublist n l).subset hx)
  exact le_add_of_nonneg_right hd

theorem totalFOB_filter_le (p : Record → Bool) (df : List Record)
    (h : ∀ r ∈ df, 0 ≤ r.fob) : totalFOB (df.filter p) ≤ totalFOB df := by
  unfold totalFOB
  apply List.Sublist.sum_le_sum ((List.filter_sublist df).map fun r => r.fob)
  intro a ha
  obtain ⟨r, hr, rfl⟩ := List.mem_map.mp ha
  exact h r hr

/-- A record with FOB `5` whose `HSN_DESCRIPTION` cell is missing. -/
def recNullHsn : Record :=
  { sbDate := 0
    portOfLoading := "Chennai"
    countryOfDestination := "USA"
    portOfDischarge := "New York"
    hsnDescription := none
    fob := 5
    quantity := 1 }

/-- A record with product `name`, FOB `f` and every other field fixed. -/
def mkProd (name : String) (f : Int) : Record :=
  { sbDate := 0
    portOfLoading := "Chennai"
    countryOfDestination := "USA"
    portOfDischarge := "New York"
    hsnDescription := some name
    fob := f
    quantity := 1 }

/-- Eleven distinct products: ten with FOB `10` and one with FOB `-100`.
`nlargest(10)` keeps the ten positive groups, so the top-10 sum is `100`
while the view's total FOB is `0`. -/
def dfNegFob : List Record :=
  [mkProd "P01" 10, mkProd "P02" 10, mkProd "P03" 10, mkProd "P04" 10,
   mkProd "P05" 10, mkProd "P06" 10, mkProd "P07" 10, mkProd "P08" 10,
   mkProd "P09" 10, mkProd "P10" 10, mkProd "NEG" (-100)]

/-- **C5, counterexample.**  Both halves of the claim fail on concrete views.
On `[recNullHsn]` there are at most `10` distinct products (indeed `0`), yet
the "Top products by FOB" table sums to `0` while the view's total FOB is
`5`: a missing-HSN row counts toward total FOB but belongs to no product
group, so the claimed equality fails.  On `dfNegFob`, whose eleventh product
has a negative FOB sum that `nlargest(10)` drops, the top-10 sum is `100`
while the total FOB is `0`, so even the claimed inequality fails. -/
theorem top_products_fob_counterexample :
    (computeTotalProducts [recNullHsn] ≤ 10 ∧
      ((computeProductFob [recNullHsn]).map Prod.snd).sum ≠ totalFOB [recNullHsn]) ∧
      ¬((computeProductFob dfNegFob).map Prod.snd).sum ≤ totalFOB dfNegFob := by
  decide

/-- **C5, amended.**  When every FOB value of the view is nonnegative, the
"Top products by FOB" table sums to at most the view's total FOB; and when
additionally every record carries an `HSN_DESCRIPTION` and the view has at
most `10` distinct products, the two sums are equal. -/
theorem top_products_fob_bound (df : List Record) (hpos : ∀ r ∈ df, 0 ≤ r.fob) :
    ((computeProductFob df).map Prod.snd).sum ≤ totalFOB df ∧
      ((∀ r ∈ df, r.hsnDescription.isSome) → computeTotalProducts df ≤ 10 →
        ((computeProductFob df).map Prod.snd).sum = totalFOB df) := by
  have hperm :
      (List.insertionSort measureGeInt
          ((hsnValues df).dedup.map fun k => (k, groupFobSum df k))).Perm
        ((hsnValues df).dedup.map fun k => (k, groupFobSum df k)) :=
    List.perm_insertionSort _ _
  have hsum :
      ((List.insertionSort measureGeInt
          ((hsnValues df).dedup.map fun k => (k, groupFobSum df k))).map Prod.snd).sum =
        totalFOB (df.filter fun r => r.hsnDescription.isSome) := by
    rw [(hperm.map Prod.snd).sum_eq]
    exact productFob_pairs_sum df
  have hnn : ∀ x ∈ (List.insertionSort measureGeInt
      ((hsnValues df).dedup.map fun k => (k, groupFobSum df k))).map Prod.snd, 0 ≤ x := by
    intro x hx
    obtain ⟨p, hp, rfl⟩ := List.mem_map.mp hx
    obtain ⟨k, _, rfl⟩ := List.mem_map.mp (hperm.mem_iff.mp hp)
    exact groupFobSum_nonneg df k hpos
  have htake : ((computeProductFob df).map Prod.snd).sum =
      (((List.insertionSort measureGeInt
          ((hsnValues df).dedup.map fun k => (k, groupFobSum df k))).map Prod.snd).take 10).sum := by
    unfold computeProductFob
    rw [List.map_take]
  constructor
  · rw [htake]
    calc (((List.insertionSort measureGeInt
          ((hsnValues df).dedup.map fun k => (k, groupFobSum df k))).map Prod.snd).take 10).sum
        ≤ ((List.insertionSort measureGeInt
          ((hsnValues df).dedup.map fun k => (k, groupFobSum df k))).map Prod.snd).sum :=
          sum_take_le _ 10 hnn
      _ = totalFOB (df.filter fun r => r.hsnDescription.isSome) := hsum
      _ ≤ totalFOB df := totalFOB_filter_le _ df hpos
  · intro hall h10
    have hfil : df.filter (fun r => r.hsnDescription.isSome) = df :=
      List.filter_eq_self.mpr hall
    have hlen : (List.insertionSort measureGeInt
        ((hsnValues df).dedup.map fun k => (k, groupFobSum df k))).length ≤ 10 := by
      rw [hperm.length_eq, List.length_map]
      exact h10
    have hfull : (List.insertionSort measureGeInt
        ((hsnValues df).dedup.map fun k => (k, groupFobSum df k))).take 10 =
        List.insertionSort measureGeInt
          ((hsnValues df).dedup.map fun k => (k, groupFobSum df k)) :=
      List.take_of_length_le hlen
    unfold computeProductFob
    rw [hfull, hsum, hfil]

/-- Witness for the amended C5 at a concrete one-product input, discharging
every hypothesis. -/
theorem top_products_fob_bound_witness :
    ((computeProductFob [rec0]).map Prod.snd).sum = totalFOB [rec0] :=
  (top_products_fob_bound [rec0] (by decide)).2 (by decide) (by decide)

/-! ### Daily shipment counts cover every day of the view's date span -/

theorem listMin_le (l : List Nat) : ∀ d ∈ l, listMin l ≤ d := by
  induction l with
  | nil => intro d hd; cases hd
  | cons a t ih =>
    intro d hd
    cases t with
    | nil =>
      rw [List.mem_singleton] at hd
      subst hd
      exact le_refl _
    | cons b u =>
      rw [listMin]
      rcases List.mem_cons.mp hd with rfl | hd2
      · exact min_le_left _ _
      · exact le_trans (min_le_right _ _) (ih d hd2)

theorem le_listMax (l : List Nat) : ∀ d ∈ l, d ≤ listMax l := by
  induction l with
  | nil => intro d hd; cases hd
  | cons a t ih =>
    intro d hd
    cases t with
    | nil =>
      rw [List.mem_singleton] at hd
      subst hd
      exact le_refl _
    | cons b u =>
      rw [listMax]
      rcases List.mem_cons.mp hd with rfl | hd2
      · exact le_max_left _ _
      · exact le_trans (ih d hd2) (le_max_right _ _)

theorem listMin_mem (l : List Nat) (h : l ≠ []) : listMin l ∈ l := by
  induction l with
  | nil => exact absurd rfl h
  | cons a t ih =>
    cases t with
    | nil => exact List.mem_singleton.mpr rfl
    | cons b u =>
      rw [listMin]
      rcases le_total a (listMin (b :: u)) with hle | hle
      · rw [min_eq_left hle]
        exact List.mem_cons_self a _
      · rw [min_eq_right hle]
        exact List.mem_cons_of_mem a (ih (List.cons_ne_nil b u))

theorem listMax_mem (l : List Nat) (h : l ≠ []) : listMax l ∈ l := by
  induction l with
  | nil => exact absurd rfl h
  | cons a t ih =>
    cases t with
    | nil => exact List.mem_singleton.mpr rfl
    | cons b u =>
      rw [listMax]
      rcases le_total a (listMax (b :: u)) with hle | hle
      · rw [max_eq_right hle]
        exact List.mem_cons_of_mem a (ih (List.cons_ne_nil b u))
      · rw [max_eq_left hle]
        exact List.mem_cons_self a _

/-- **C9.**  For a non-empty view, the daily-shipment-counts table has one row
for every calendar day from the earliest to the latest `SB DATE` inclusive, in
strictly ascending date order, and each row's count is the number of records
on that day — days with no shipment keep a row whose count is `0`. -/
theorem daily_counts_cover_span (df : List Record) (h : df ≠ []) :
    (listMin (dayList df) ∈ dayList df ∧ listMax (dayList df) ∈ dayList df ∧
        ∀ d ∈ dayList df, listMin (dayList df) ≤ d ∧ d ≤ listMax (dayList df)) ∧
      ((computeShipmentCounts df).map Prod.fst).Sorted (· < ·) ∧
      (∀ d : Nat, (listMin (dayList df) ≤ d ∧ d ≤ listMax (dayList df)) ↔
        d ∈ (computeShipmentCounts df).map Prod.fst) ∧
      (∀ p ∈ computeShipmentCounts df,
        p.2 = (df.filter fun r => dayOf r.sbDate == p.1).length) := by
  have hne : df.isEmpty = false := by
    cases df with
    | nil => exact absurd rfl h
    | cons a t => rfl
  have hdl : dayList df ≠ [] := by
    cases df with
    | nil => exact absurd rfl h
    | cons a t => exact List.cons_ne_nil _ _
  have hlohi : listMin (dayList df) ≤ listMax (dayList df) :=
    le_trans (listMin_le _ _ (listMax_mem _ hdl)) (le_refl _)
  have hcompute : computeShipmentCounts df =
      (List.range (listMax (dayList df) + 1 - listMin (dayList df))).map fun i =>
        (listMin (dayList df) + i,
          (df.filter fun r => dayOf r.sbDate == listMin (dayList df) + i).length) := by
    unfold computeShipmentCounts
    rw [hne]
    rfl
  refine ⟨⟨listMin_mem _ hdl, listMax_mem _ hdl,
    fun d hd => ⟨listMin_le _ d hd, le_listMax _ d hd⟩⟩, ?_, ?_, ?_⟩
  · rw [hcompute, List.map_map]
    have hfun : (Prod.fst ∘ fun i =>
        ((listMin (dayList df) + i : Nat),
          (df.filter fun r => dayOf r.sbDate == listMin (dayList df) + i).length)) =
        fun i => listMin (dayList df) + i := rfl
    rw [hfun]
    exact (List.pairwise_lt_range _).map _
      fun a b hab => Nat.add_lt_add_left hab _
  · intro d
    rw [hcompute, List.map_map]
    simp only [List.mem_map, Function.comp, List.mem_range]
    constructor
    · rintro ⟨hlo, hhi⟩
      exact ⟨d - listMin (dayList df), by omega, by omega⟩
    · rintro ⟨i, hi, rfl⟩
      omega
  · intro p hp
    rw [hcompute] at hp
    obtain ⟨i, _, rfl⟩ := List.mem_map.mp hp
    rfl

/-- Witness for C9 at a concrete two-day input. -/
theorem daily_counts_cover_span_witness :
    ((computeShipmentCounts [rec0, recLate]).map Prod.fst).Sorted (· < ·) :=
  (daily_counts_cover_span [rec0, recLate] (by decide)).2.1

end PortDashboard
